import Mathlib

/-! Verification of fastrand: lane-parallel MWC1616 and xorshift128+ generators.

A shallow embedding of `src/fastrand.h`.

* A vector register `ivec_t` holding `N` lanes is a function `Fin N → Nat`; the lane width
  (32 or 64 bits) is fixed by the intrinsic that operates on it, exactly as in the source,
  where one register type serves the `epi32` and the `epi64` intrinsics.
* Machine integers are natural numbers; every intrinsic that can leave the lane width
  reduces its result modulo `2 ^ 32` resp. `2 ^ 64`.
* The generator objects are structures of lane arrays; `Generate` is a function from the
  object before the call to the object after it.
* `std::random_device{}()` is a draw from an entropy stream with a cursor.
* The lane count is a parameter of the objects; the three values the build can give it are
  `SIMD_LEN_MWC1616` and `SIMD_LEN_XORSHIFT128p`.  The loop counters of the constructors
  (`int`, `uint32_t`) never leave their range for these counts and are natural numbers here.
-/

namespace fastrand

/-! ## Build configuration (`fastrand.h`, lines 60-112) -/

/-- The instruction set selected by the preprocessor branch. -/
inductive SimdTarget where
  | avx512f
  | avx2
  | sse
  deriving DecidableEq, Repr

/-- Number of 32-bit lanes, `SIMD_LEN_MWC1616`. -/
def SIMD_LEN_MWC1616 : SimdTarget → Nat
  | .avx512f => 16
  | .avx2 => 8
  | .sse => 4

/-- Number of 64-bit lanes, `SIMD_LEN_XORSHIFT128p`. -/
def SIMD_LEN_XORSHIFT128p : SimdTarget → Nat
  | .avx512f => 8
  | .avx2 => 4
  | .sse => 2

/-- Alignment in bytes, `ALIGN`. -/
def ALIGN : SimdTarget → Nat
  | .avx512f => 64
  | .avx2 => 32
  | .sse => 16

/-! ## Vector registers and intrinsics -/

/-- A vector register of `N` lanes. -/
abbrev ivec_t (N : Nat) := Fin N → Nat

/-- Aligned load of a lane array into a register. -/
def _simd_load_si {N : Nat} (p : Fin N → Nat) : ivec_t N := p

/-- Aligned store of a register; the result is the new content of the lane array. -/
def _simd_store_si {N : Nat} (v : ivec_t N) : Fin N → Nat := v

/-- Bitwise AND of two registers. -/
def _simd_and_si {N : Nat} (a b : ivec_t N) : ivec_t N := fun i => a i &&& b i

/-- Bitwise XOR of two registers. -/
def _simd_xor_si {N : Nat} (a b : ivec_t N) : ivec_t N := fun i => a i ^^^ b i

/-- Logical right shift of every 32-bit lane by an immediate; counts above 31 give zero. -/
def _simd_srli_epi32 {N : Nat} (a : ivec_t N) (imm8 : Nat) : ivec_t N :=
  fun i => if imm8 > 31 then 0 else a i >>> imm8

/-- Logical right shift of every 64-bit lane by an immediate; counts above 63 give zero. -/
def _simd_srli_epi64 {N : Nat} (a : ivec_t N) (imm8 : Nat) : ivec_t N :=
  fun i => if imm8 > 63 then 0 else a i >>> imm8

/-- Left shift of every 32-bit lane by an immediate, keeping the low 32 bits. -/
def _simd_slli_epi32 {N : Nat} (a : ivec_t N) (imm8 : Nat) : ivec_t N :=
  fun i => if imm8 > 31 then 0 else (a i <<< imm8) % 2 ^ 32

/-- Left shift of every 64-bit lane by an immediate, keeping the low 64 bits. -/
def _simd_slli_epi64 {N : Nat} (a : ivec_t N) (imm8 : Nat) : ivec_t N :=
  fun i => if imm8 > 63 then 0 else (a i <<< imm8) % 2 ^ 64

/-- Lane-wise 32-bit addition with wraparound. -/
def _simd_add_epi32 {N : Nat} (a b : ivec_t N) : ivec_t N := fun i => (a i + b i) % 2 ^ 32

/-- Lane-wise 64-bit addition with wraparound. -/
def _simd_add_epi64 {N : Nat} (a b : ivec_t N) : ivec_t N := fun i => (a i + b i) % 2 ^ 64

/-- Lane-wise 32-bit multiplication, keeping the low 32 bits of each product. -/
def _simd_mullo_epi32 {N : Nat} (a b : ivec_t N) : ivec_t N := fun i => (a i * b i) % 2 ^ 32

/-! ## Entropy source -/

/-- The operating system's entropy, seen as the sequence of values that successive
`std::random_device{}()` expressions return, with the number of values already taken. -/
structure random_device where
  draws : Nat → Nat
  taken : Nat

/-- One evaluation of `std::random_device{}()`: an `unsigned int` and the advanced source. -/
def random_device.call (rd : random_device) : Nat × random_device :=
  (rd.draws rd.taken % 2 ^ 32, { rd with taken := rd.taken + 1 })

/-- Array element read `a[i]`. -/
def fetch {N : Nat} (a : Fin N → Nat) (i : Nat) : Nat :=
  if h : i < N then a ⟨i, h⟩ else 0

/-- Array element assignment `a[i] = v`. -/
def assign {N : Nat} (a : Fin N → Nat) (i : Nat) (v : Nat) : Fin N → Nat :=
  fun j => if j.val = i then v else a j

/-! ## MWC1616 (`fastrand.h`, lines 118-183) -/

/-- The `mwc1616` object with `N` lanes. -/
structure mwc1616 (N : Nat) where
  x_ : Fin N → Nat
  y_ : Fin N → Nat
  mask_ : Fin N → Nat
  mul1_ : Fin N → Nat
  mul2_ : Fin N → Nat
  res_ : Fin N → Nat

/-- Body of the constructor loop for index `i`. -/
def mwc1616.ctorBody {N : Nat} (i : Nat) (st : mwc1616 N × random_device) :
    mwc1616 N × random_device :=
  let s := st.1
  let rd := st.2
  let s := { s with mask_ := assign s.mask_ i 0xFFFF }
  let s := { s with mul1_ := assign s.mul1_ i 0x4650 }
  let s := { s with mul2_ := assign s.mul2_ i 0x78B7 }
  let d := rd.call
  let s := { s with x_ := assign s.x_ i d.1 }
  let d := d.2.call
  let s := { s with y_ := assign s.y_ i d.1 }
  (s, d.2)

/-- The first `n` iterations of the constructor loop `for (int i = 0; i < n; i++)`. -/
def mwc1616.ctorLoop {N : Nat} (st : mwc1616 N × random_device) :
    Nat → mwc1616 N × random_device
  | 0 => st
  | n + 1 => mwc1616.ctorBody n (mwc1616.ctorLoop st n)

/-- The constructor `mwc1616::mwc1616()`, run on storage `mem` (whose content is not
initialised by the constructor itself, as for `res_`) with entropy `rd`.  It is named `ctor`
because a declaration `mwc1616.mwc1616` would shadow the structure inside its namespace. -/
def mwc1616.ctor {N : Nat} (mem : mwc1616 N) (rd : random_device) :
    mwc1616 N × random_device :=
  mwc1616.ctorLoop (mem, rd) N

/-- The method `mwc1616::Generate()`. -/
def mwc1616.Generate {N : Nat} (s : mwc1616 N) : mwc1616 N :=
  let x := _simd_load_si s.x_
  let y := _simd_load_si s.y_
  let mask := _simd_load_si s.mask_
  let mul1 := _simd_load_si s.mul1_
  let mul2 := _simd_load_si s.mul2_
  let xmask := _simd_and_si x mask
  let xshift := _simd_srli_epi32 x 0x10
  let xmul := _simd_mullo_epi32 xmask mul1
  let xnew := _simd_add_epi32 xmul xshift
  let s := { s with x_ := _simd_store_si xnew }
  let ymask := _simd_and_si y mask
  let yshift := _simd_srli_epi32 y 0x10
  let ymul := _simd_mullo_epi32 ymask mul2
  let ynew := _simd_add_epi32 ymul yshift
  let s := { s with y_ := _simd_store_si ynew }
  let ymasknew := _simd_and_si ynew mask
  let xshiftnew := _simd_slli_epi32 xnew 0x10
  let res := _simd_add_epi32 xshiftnew ymasknew
  { s with res_ := _simd_store_si res }

/-- The object after `k` successive calls of `Generate`. -/
def mwc1616.run {N : Nat} (s : mwc1616 N) : Nat → mwc1616 N
  | 0 => s
  | k + 1 => (mwc1616.run s k).Generate

/-! ## xorshift128+ (`fastrand.h`, lines 189-239) -/

/-- The `xorshift128plus` object with `M` lanes. -/
structure xorshift128plus (M : Nat) where
  s0_ : Fin M → Nat
  s1_ : Fin M → Nat
  res_ : Fin M → Nat

/-- Body of the constructor loop for index `i`. -/
def xorshift128plus.ctorBody {M : Nat} (i : Nat) (st : xorshift128plus M × random_device) :
    xorshift128plus M × random_device :=
  let s := st.1
  let rd := st.2
  let d := rd.call
  let s := { s with s0_ := assign s.s0_ i ((d.1 <<< 32) % 2 ^ 64) }
  let d := d.2.call
  let s := { s with s0_ := assign s.s0_ i (fetch s.s0_ i ||| d.1) }
  let d := d.2.call
  let s := { s with s1_ := assign s.s1_ i ((d.1 <<< 32) % 2 ^ 64) }
  let d := d.2.call
  let s := { s with s1_ := assign s.s1_ i (fetch s.s1_ i ||| d.1) }
  (s, d.2)

/-- The first `n` iterations of the constructor loop `for (uint32_t i = 0; i < n; i++)`. -/
def xorshift128plus.ctorLoop {M : Nat} (st : xorshift128plus M × random_device) :
    Nat → xorshift128plus M × random_device
  | 0 => st
  | n + 1 => xorshift128plus.ctorBody n (xorshift128plus.ctorLoop st n)

/-- The constructor `xorshift128plus::xorshift128plus()`, run on storage `mem` with
entropy `rd`; named `ctor` for the same reason as `mwc1616.ctor`. -/
def xorshift128plus.ctor {M : Nat} (mem : xorshift128plus M) (rd : random_device) :
    xorshift128plus M × random_device :=
  xorshift128plus.ctorLoop (mem, rd) M

/-- The method `xorshift128plus::Generate()`. -/
def xorshift128plus.Generate {M : Nat} (s : xorshift128plus M) : xorshift128plus M :=
  let s1 := _simd_load_si s.s0_
  let s0 := _simd_load_si s.s1_
  let s := { s with s0_ := _simd_store_si s0 }
  let s1_l := _simd_slli_epi64 s1 23
  let s1 := _simd_xor_si s1 s1_l
  let s0_r := _simd_srli_epi64 s0 5
  let s1_r := _simd_srli_epi64 s1 18
  let s10x := _simd_xor_si s1 s0
  let s1_new := _simd_xor_si (_simd_xor_si s10x s1_r) s0_r
  let s := { s with s1_ := _simd_store_si s1_new }
  { s with res_ := _simd_store_si (_simd_add_epi64 s1_new s0) }

/-- The object after `k` successive calls of `Generate`. -/
def xorshift128plus.run {M : Nat} (s : xorshift128plus M) : Nat → xorshift128plus M
  | 0 => s
  | k + 1 => (xorshift128plus.run s k).Generate

/-- The constants of every lane are the ones the constructor writes. -/
def mwc1616.constants {N : Nat} (s : mwc1616 N) : Prop :=
  ∀ i : Fin N, s.mask_ i = 0xFFFF ∧ s.mul1_ i = 0x4650 ∧ s.mul2_ i = 0x78B7

instance mwc1616.decidableConstants {N : Nat} (s : mwc1616 N) : Decidable s.constants := by
  unfold mwc1616.constants
  infer_instance

/-! ## Sample objects used to instantiate the theorems -/

/-- A four-lane MWC object with the constructor's constants. -/
def mwc1616.sample : mwc1616 4 :=
  { x_ := fun i => 0x12345678 + i, y_ := fun i => 0xFFFFFFFF - i,
    mask_ := fun _ => 0xFFFF, mul1_ := fun _ => 0x4650, mul2_ := fun _ => 0x78B7,
    res_ := fun _ => 0 }

/-- The object `mwc1616.sample` with lane 0 and the output buffer changed. -/
def mwc1616.sample0 : mwc1616 4 :=
  { mwc1616.sample with
    x_ := fun i => if i.val = 0 then 7 else 0x12345678 + i,
    y_ := fun i => if i.val = 0 then 9 else 0xFFFFFFFF - i,
    res_ := fun i => 5 + i }

/-- An eight-lane MWC object whose lanes below 4 start as those of `mwc1616.sample`. -/
def mwc1616.sample8 : mwc1616 8 :=
  { x_ := fun i => 0x12345678 + i, y_ := fun i => 0xFFFFFFFF - i,
    mask_ := fun _ => 0xFFFF, mul1_ := fun _ => 0x4650, mul2_ := fun _ => 0x78B7,
    res_ := fun i => 3 * i }

/-- A two-lane XSA object. -/
def xorshift128plus.sample : xorshift128plus 2 :=
  { s0_ := fun i => 0x0123456789ABCDEF + i, s1_ := fun i => 0xFFFFFFFFFFFFFFFF - i,
    res_ := fun _ => 0 }

/-- The object `xorshift128plus.sample` with lane 0 and the output buffer changed. -/
def xorshift128plus.sample0 : xorshift128plus 2 :=
  { s0_ := fun i => if i.val = 0 then 7 else 0x0123456789ABCDEF + i,
    s1_ := fun i => if i.val = 0 then 9 else 0xFFFFFFFFFFFFFFFF - i,
    res_ := fun i => 5 + i }

/-- A four-lane XSA object whose lanes below 2 start as those of `xorshift128plus.sample`. -/
def xorshift128plus.sample4 : xorshift128plus 4 :=
  { s0_ := fun i => 0x0123456789ABCDEF + i, s1_ := fun i => 0xFFFFFFFFFFFFFFFF - i,
    res_ := fun i => 3 * i }

/-- The all-zero XSA object with two lanes. -/
def xorshift128plus.zero : xorshift128plus 2 :=
  { s0_ := fun _ => 0, s1_ := fun _ => 0, res_ := fun _ => 0 }

/-- A sequence of 32-bit draws. -/
def random_device.sampleDraws : Nat → Nat := fun n => (7 * n + 3) % 2 ^ 32

/-! ## The x and y updates before reduction -/

/-- The value of `xmul + xshift` in lane `i` when the product of `_simd_mullo_epi32` and the
sum of `_simd_add_epi32` are not reduced modulo `2 ^ 32`: the operands are those of
`Generate`, the two results are taken in unbounded integers. -/
def mwc1616.xexact {N : Nat} (s : mwc1616 N) (i : Fin N) : Nat :=
  _simd_and_si (_simd_load_si s.x_) (_simd_load_si s.mask_) i * _simd_load_si s.mul1_ i
    + _simd_srli_epi32 (_simd_load_si s.x_) 0x10 i

/-- The value of `ymul + yshift` in lane `i` without reduction modulo `2 ^ 32`. -/
def mwc1616.yexact {N : Nat} (s : mwc1616 N) (i : Fin N) : Nat :=
  _simd_and_si (_simd_load_si s.y_) (_simd_load_si s.mask_) i * _simd_load_si s.mul2_ i
    + _simd_srli_epi32 (_simd_load_si s.y_) 0x10 i

/-- A four-lane MWC object whose lane 0 is zero; the other lanes are those of
`mwc1616.sample`. -/
def mwc1616.sampleZero : mwc1616 4 :=
  { mwc1616.sample with
    x_ := fun i => if i.val = 0 then 0 else 0x12345678 + i,
    y_ := fun i => if i.val = 0 then 0 else 0xFFFFFFFF - i }

/-- A four-lane MWC object with `x = 0x464FFFFF` and `y = 0x78B6FFFF` in every lane. -/
def mwc1616.sampleFixed : mwc1616 4 :=
  { mwc1616.sample with x_ := fun _ => 0x464FFFFF, y_ := fun _ => 0x78B6FFFF }

/-- A single-lane MWC object with the largest 32-bit values in `x` and `y`. -/
def mwc1616.sampleMax : mwc1616 1 :=
  { x_ := fun _ => 0xFFFFFFFF, y_ := fun _ => 0xFFFFFFFF,
    mask_ := fun _ => 0xFFFF, mul1_ := fun _ => 0x4650, mul2_ := fun _ => 0x78B7,
    res_ := fun _ => 0 }

/-! ## Lane-level reading of `Generate` -/

theorem mwc1616.mwc_Generate_x_ {N : Nat} (s : mwc1616 N) (i : Fin N) :
    s.Generate.x_ i
      = ((s.x_ i &&& s.mask_ i) * s.mul1_ i % 2 ^ 32 + s.x_ i >>> 16) % 2 ^ 32 := by
  simp [mwc1616.Generate, _simd_load_si, _simd_store_si, _simd_and_si, _simd_srli_epi32,
    _simd_mullo_epi32, _simd_add_epi32]

theorem mwc1616.mwc_Generate_y_ {N : Nat} (s : mwc1616 N) (i : Fin N) :
    s.Generate.y_ i
      = ((s.y_ i &&& s.mask_ i) * s.mul2_ i % 2 ^ 32 + s.y_ i >>> 16) % 2 ^ 32 := by
  simp [mwc1616.Generate, _simd_load_si, _simd_store_si, _simd_and_si, _simd_srli_epi32,
    _simd_mullo_epi32, _simd_add_epi32]

theorem mwc1616.mwc_Generate_res_ {N : Nat} (s : mwc1616 N) (i : Fin N) :
    s.Generate.res_ i
      = ((s.Generate.x_ i <<< 16) % 2 ^ 32 + (s.Generate.y_ i &&& s.mask_ i)) % 2 ^ 32 := by
  simp [mwc1616.Generate, _simd_load_si, _simd_store_si, _simd_and_si, _simd_srli_epi32,
    _simd_mullo_epi32, _simd_add_epi32, _simd_slli_epi32]

theorem mwc1616.mwc_Generate_mask_ {N : Nat} (s : mwc1616 N) : s.Generate.mask_ = s.mask_ := rfl

theorem mwc1616.mwc_Generate_mul1_ {N : Nat} (s : mwc1616 N) : s.Generate.mul1_ = s.mul1_ := rfl

theorem mwc1616.mwc_Generate_mul2_ {N : Nat} (s : mwc1616 N) : s.Generate.mul2_ = s.mul2_ := rfl

theorem xorshift128plus.xsa_Generate_s0_ {M : Nat} (s : xorshift128plus M) (i : Fin M) :
    s.Generate.s0_ i = s.s1_ i := rfl

theorem xorshift128plus.xsa_Generate_s1_ {M : Nat} (s : xorshift128plus M) (i : Fin M) :
    s.Generate.s1_ i
      = (s.s0_ i ^^^ (s.s0_ i <<< 23) % 2 ^ 64) ^^^ s.s1_ i
          ^^^ ((s.s0_ i ^^^ (s.s0_ i <<< 23) % 2 ^ 64) >>> 18) ^^^ (s.s1_ i >>> 5) := by
  simp [xorshift128plus.Generate, _simd_load_si, _simd_store_si, _simd_xor_si,
    _simd_srli_epi64, _simd_slli_epi64]

theorem xorshift128plus.xsa_Generate_res_ {M : Nat} (s : xorshift128plus M) (i : Fin M) :
    s.Generate.res_ i = (s.Generate.s1_ i + s.s1_ i) % 2 ^ 64 := by
  simp [xorshift128plus.Generate, _simd_load_si, _simd_store_si, _simd_xor_si,
    _simd_srli_epi64, _simd_slli_epi64, _simd_add_epi64]

/-- Whatever the object held, every lane that `Generate` stores fits in 32 bits. -/
theorem mwc1616.mwc_Generate_lt {N : Nat} (s : mwc1616 N) (i : Fin N) :
    s.Generate.x_ i < 2 ^ 32 ∧ s.Generate.y_ i < 2 ^ 32 ∧ s.Generate.res_ i < 2 ^ 32 := by
  rw [mwc1616.mwc_Generate_x_, mwc1616.mwc_Generate_y_, mwc1616.mwc_Generate_res_]
  exact ⟨Nat.mod_lt _ (by decide), Nat.mod_lt _ (by decide), Nat.mod_lt _ (by decide)⟩

/-! ## Runs -/

theorem mwc1616.mwc_run_succ_front {N : Nat} (s : mwc1616 N) (k : Nat) :
    s.run (k + 1) = s.Generate.run k := by
  induction k with
  | zero => rfl
  | succ k ih => rw [mwc1616.run, ih]; rfl

theorem xorshift128plus.xsa_run_succ_front {M : Nat} (s : xorshift128plus M) (k : Nat) :
    s.run (k + 1) = s.Generate.run k := by
  induction k with
  | zero => rfl
  | succ k ih => rw [xorshift128plus.run, ih]; rfl

/-- A lane of `Generate` is determined by the same lane of the object before the call,
whatever the lane counts of the two objects compared. -/
theorem mwc1616.mwc_Generate_lane_congr {N N' : Nat} (s : mwc1616 N) (s' : mwc1616 N')
    (i : Fin N) (i' : Fin N') (hx : s.x_ i = s'.x_ i') (hy : s.y_ i = s'.y_ i')
    (hmask : s.mask_ i = s'.mask_ i') (hmul1 : s.mul1_ i = s'.mul1_ i')
    (hmul2 : s.mul2_ i = s'.mul2_ i') :
    s.Generate.x_ i = s'.Generate.x_ i' ∧ s.Generate.y_ i = s'.Generate.y_ i' ∧
    s.Generate.res_ i = s'.Generate.res_ i' := by
  have h1 : s.Generate.x_ i = s'.Generate.x_ i' := by
    rw [mwc1616.mwc_Generate_x_, mwc1616.mwc_Generate_x_, hx, hmask, hmul1]
  have h2 : s.Generate.y_ i = s'.Generate.y_ i' := by
    rw [mwc1616.mwc_Generate_y_, mwc1616.mwc_Generate_y_, hy, hmask, hmul2]
  refine ⟨h1, h2, ?_⟩
  rw [mwc1616.mwc_Generate_res_, mwc1616.mwc_Generate_res_, h1, h2, hmask]

theorem mwc1616.mwc_run_lane_congr {N N' : Nat} (s : mwc1616 N) (s' : mwc1616 N')
    (i : Fin N) (i' : Fin N') (hx : s.x_ i = s'.x_ i') (hy : s.y_ i = s'.y_ i')
    (hmask : s.mask_ i = s'.mask_ i') (hmul1 : s.mul1_ i = s'.mul1_ i')
    (hmul2 : s.mul2_ i = s'.mul2_ i') (k : Nat) :
    (s.run k).x_ i = (s'.run k).x_ i' ∧ (s.run k).y_ i = (s'.run k).y_ i' ∧
    (s.run k).mask_ i = (s'.run k).mask_ i' ∧ (s.run k).mul1_ i = (s'.run k).mul1_ i' ∧
    (s.run k).mul2_ i = (s'.run k).mul2_ i' ∧
    (1 ≤ k → (s.run k).res_ i = (s'.run k).res_ i') := by
  induction k with
  | zero => exact ⟨hx, hy, hmask, hmul1, hmul2, fun h => absurd h (by decide)⟩
  | succ k ih =>
    obtain ⟨ix, iy, imask, imul1, imul2, _⟩ := ih
    obtain ⟨gx, gy, gres⟩ :=
      mwc1616.mwc_Generate_lane_congr (s.run k) (s'.run k) i i' ix iy imask imul1 imul2
    exact ⟨gx, gy, imask, imul1, imul2, fun _ => gres⟩

theorem xorshift128plus.xsa_Generate_lane_congr {M M' : Nat} (s : xorshift128plus M)
    (s' : xorshift128plus M') (i : Fin M) (i' : Fin M') (h0 : s.s0_ i = s'.s0_ i')
    (h1 : s.s1_ i = s'.s1_ i') :
    s.Generate.s0_ i = s'.Generate.s0_ i' ∧ s.Generate.s1_ i = s'.Generate.s1_ i' ∧
    s.Generate.res_ i = s'.Generate.res_ i' := by
  have e1 : s.Generate.s1_ i = s'.Generate.s1_ i' := by
    rw [xorshift128plus.xsa_Generate_s1_, xorshift128plus.xsa_Generate_s1_, h0, h1]
  refine ⟨by rw [xorshift128plus.xsa_Generate_s0_, xorshift128plus.xsa_Generate_s0_, h1], e1, ?_⟩
  rw [xorshift128plus.xsa_Generate_res_, xorshift128plus.xsa_Generate_res_, e1, h1]

theorem xorshift128plus.xsa_run_lane_congr {M M' : Nat} (s : xorshift128plus M)
    (s' : xorshift128plus M') (i : Fin M) (i' : Fin M') (h0 : s.s0_ i = s'.s0_ i')
    (h1 : s.s1_ i = s'.s1_ i') (k : Nat) :
    (s.run k).s0_ i = (s'.run k).s0_ i' ∧ (s.run k).s1_ i = (s'.run k).s1_ i' ∧
    (1 ≤ k → (s.run k).res_ i = (s'.run k).res_ i') := by
  induction k with
  | zero => exact ⟨h0, h1, fun h => absurd h (by decide)⟩
  | succ k ih =>
    obtain ⟨i0, i1, _⟩ := ih
    obtain ⟨g0, g1, gres⟩ :=
      xorshift128plus.xsa_Generate_lane_congr (s.run k) (s'.run k) i i' i0 i1
    exact ⟨g0, g1, fun _ => gres⟩

/-- Equality of the recurrence state makes `Generate` forget the output buffer. -/
theorem mwc1616.mwc_Generate_congr {N : Nat} (s s' : mwc1616 N) (hx : s.x_ = s'.x_)
    (hy : s.y_ = s'.y_) (hmask : s.mask_ = s'.mask_) (hmul1 : s.mul1_ = s'.mul1_)
    (hmul2 : s.mul2_ = s'.mul2_) : s.Generate = s'.Generate := by
  simp only [mwc1616.Generate, hx, hy, hmask, hmul1, hmul2]

theorem xorshift128plus.xsa_Generate_congr {M : Nat} (s s' : xorshift128plus M)
    (h0 : s.s0_ = s'.s0_) (h1 : s.s1_ = s'.s1_) : s.Generate = s'.Generate := by
  simp only [xorshift128plus.Generate, h0, h1]

theorem mwc1616.mwc_run_constants {N : Nat} (s : mwc1616 N) (hc : s.constants) (k : Nat) :
    (s.run k).constants := by
  induction k with
  | zero => exact hc
  | succ k ih => exact ih

/-! ## Constructors -/

theorem mwc1616.mwc_ctorLoop_constants {N : Nat} (st : mwc1616 N × random_device) (n : Nat)
    (j : Fin N) (hj : j.val < n) :
    (mwc1616.ctorLoop st n).1.mask_ j = 0xFFFF ∧
    (mwc1616.ctorLoop st n).1.mul1_ j = 0x4650 ∧
    (mwc1616.ctorLoop st n).1.mul2_ j = 0x78B7 := by
  induction n with
  | zero => exact absurd hj (Nat.not_lt_zero _)
  | succ n ih =>
    by_cases hjn : j.val = n
    · simp [mwc1616.ctorLoop, mwc1616.ctorBody, assign, hjn]
    · have hlt : j.val < n := by omega
      simpa [mwc1616.ctorLoop, mwc1616.ctorBody, assign, hjn] using ih hlt

/-- Two 32-bit halves joined by shift and OR form the 64-bit number with these halves. -/
theorem concat_halves (hi lo : Nat) (hhi : hi < 2 ^ 32) (hlo : lo < 2 ^ 32) :
    (hi <<< 32) % 2 ^ 64 ||| lo = hi * 2 ^ 32 + lo := by
  have hlt : hi <<< 32 < 2 ^ 64 := by rw [Nat.shiftLeft_eq]; omega
  rw [Nat.mod_eq_of_lt hlt, Nat.shiftLeft_eq, Nat.mul_comm hi,
    ← Nat.mul_add_lt_is_or hlo hi]

theorem xorshift128plus.xsa_ctorLoop_spec {M : Nat} (mem : xorshift128plus M)
    (rd : random_device) (n : Nat) :
    (xorshift128plus.ctorLoop (mem, rd) n).2.taken = rd.taken + 4 * n ∧
    (xorshift128plus.ctorLoop (mem, rd) n).2.draws = rd.draws ∧
    ∀ j : Fin M, j.val < n →
      (xorshift128plus.ctorLoop (mem, rd) n).1.s0_ j
        = ((rd.draws (rd.taken + 4 * j) % 2 ^ 32) <<< 32) % 2 ^ 64
            ||| rd.draws (rd.taken + 4 * j + 1) % 2 ^ 32 ∧
      (xorshift128plus.ctorLoop (mem, rd) n).1.s1_ j
        = ((rd.draws (rd.taken + 4 * j + 2) % 2 ^ 32) <<< 32) % 2 ^ 64
            ||| rd.draws (rd.taken + 4 * j + 3) % 2 ^ 32 := by
  induction n with
  | zero => exact ⟨rfl, rfl, fun j hj => absurd hj (Nat.not_lt_zero _)⟩
  | succ n ih =>
    obtain ⟨ht, hdr, hl⟩ := ih
    refine ⟨?_, ?_, ?_⟩
    · simp only [xorshift128plus.ctorLoop, xorshift128plus.ctorBody, random_device.call, ht]
      omega
    · simp only [xorshift128plus.ctorLoop, xorshift128plus.ctorBody, random_device.call, hdr]
    · intro j hj
      by_cases hjn : j.val = n
      · have hn : n < M := hjn ▸ j.isLt
        simp [xorshift128plus.ctorLoop, xorshift128plus.ctorBody, random_device.call,
          assign, fetch, hjn, hn, ht, hdr, Nat.add_assoc]
      · have hlt : j.val < n := by omega
        simpa [xorshift128plus.ctorLoop, xorshift128plus.ctorBody, assign, hjn] using hl j hlt

/-! ## The per-lane recurrences -/

/-- C1. For every lane count, every lane and every MWC state whose constants are
`mask = 0xFFFF`, `mul1 = 0x4650`, `mul2 = 0x78B7`, one call of `Generate` sets `x` to
`((x & 0xFFFF) * 0x4650 + (x >> 16)) mod 2^32`, `y` to
`((y & 0xFFFF) * 0x78B7 + (y >> 16)) mod 2^32`, and `res` to
`((x_new << 16) + (y_new & 0xFFFF)) mod 2^32`, with `x_new`, `y_new` the values just
committed. -/
theorem mwc1616_Generate_recurrence {N : Nat} (s : mwc1616 N) (hc : s.constants)
    (i : Fin N) :
    s.Generate.x_ i = ((s.x_ i &&& 0xFFFF) * 0x4650 + s.x_ i >>> 16) % 2 ^ 32 ∧
    s.Generate.y_ i = ((s.y_ i &&& 0xFFFF) * 0x78B7 + s.y_ i >>> 16) % 2 ^ 32 ∧
    s.Generate.res_ i
      = (s.Generate.x_ i <<< 16 + (s.Generate.y_ i &&& 0xFFFF)) % 2 ^ 32 := by
  obtain ⟨hmask, hmul1, hmul2⟩ := hc i
  refine ⟨?_, ?_, ?_⟩
  · rw [mwc1616.mwc_Generate_x_, hmask, hmul1, Nat.mod_add_mod]
  · rw [mwc1616.mwc_Generate_y_, hmask, hmul2, Nat.mod_add_mod]
  · rw [mwc1616.mwc_Generate_res_, hmask, Nat.mod_add_mod]

/-- Witness for C1: a four-lane state with the constructor's constants. -/
theorem mwc1616_Generate_recurrence_witness :
    (mwc1616.mk (N := 4) (fun i => 0x12345678 + i) (fun i => 0xFFFFFFFF - i)
        (fun _ => 0xFFFF) (fun _ => 0x4650) (fun _ => 0x78B7) (fun _ => 0)).constants ∧
    (mwc1616.mk (N := 4) (fun i => 0x12345678 + i) (fun i => 0xFFFFFFFF - i)
        (fun _ => 0xFFFF) (fun _ => 0x4650) (fun _ => 0x78B7) (fun _ => 0)).Generate.x_ 2
      = 0x17C07454 :=
  ⟨fun _ => ⟨rfl, rfl, rfl⟩,
   (mwc1616_Generate_recurrence
      (mwc1616.mk (N := 4) (fun i => 0x12345678 + i) (fun i => 0xFFFFFFFF - i)
        (fun _ => 0xFFFF) (fun _ => 0x4650) (fun _ => 0x78B7) (fun _ => 0))
      (fun _ => ⟨rfl, rfl, rfl⟩) 2).1.trans (by decide)⟩

/-- C2. For every lane count, every lane and every XSA state, one call of `Generate`, with
`a` the old `s0` and `b` the old `s1` of the lane, sets `s0` to `b`, sets `s1` to
`t XOR b XOR (t >> 18) XOR (b >> 5)` where `t = a XOR ((a << 23) mod 2^64)`, and sets `res`
to `(s1_new + b) mod 2^64`. -/
theorem xorshift128plus_Generate_recurrence {M : Nat} (s : xorshift128plus M) (i : Fin M) :
    s.Generate.s0_ i = s.s1_ i ∧
    s.Generate.s1_ i
      = (s.s0_ i ^^^ (s.s0_ i <<< 23) % 2 ^ 64) ^^^ s.s1_ i
          ^^^ ((s.s0_ i ^^^ (s.s0_ i <<< 23) % 2 ^ 64) >>> 18) ^^^ (s.s1_ i >>> 5) ∧
    s.Generate.res_ i = (s.Generate.s1_ i + s.s1_ i) % 2 ^ 64 :=
  ⟨s.xsa_Generate_s0_ i, s.xsa_Generate_s1_ i, s.xsa_Generate_res_ i⟩

/-- C3. Known vector (MWC): a lane with `x = 1`, `y = 1` and the constants
`mask = 0xFFFF`, `mul1 = 0x4650`, `mul2 = 0x78B7` holds `x = 0x4650`, `y = 0x78B7` and
`res = 0x465078B7` after one call of `Generate`. -/
theorem mwc1616_known_vector {N : Nat} (s : mwc1616 N) (i : Fin N)
    (hx : s.x_ i = 1) (hy : s.y_ i = 1) (hmask : s.mask_ i = 0xFFFF)
    (hmul1 : s.mul1_ i = 0x4650) (hmul2 : s.mul2_ i = 0x78B7) :
    s.Generate.x_ i = 0x4650 ∧ s.Generate.y_ i = 0x78B7 ∧
    s.Generate.res_ i = 0x465078B7 := by
  have h1 : s.Generate.x_ i = 0x4650 := by
    rw [mwc1616.mwc_Generate_x_, hx, hmask, hmul1]; decide
  have h2 : s.Generate.y_ i = 0x78B7 := by
    rw [mwc1616.mwc_Generate_y_, hy, hmask, hmul2]; decide
  refine ⟨h1, h2, ?_⟩
  rw [mwc1616.mwc_Generate_res_, h1, h2, hmask]; decide

/-- Witness for C3: the single-lane object of the scenario. -/
theorem mwc1616_known_vector_witness :
    (mwc1616.mk (N := 1) (fun _ => 1) (fun _ => 1) (fun _ => 0xFFFF) (fun _ => 0x4650)
        (fun _ => 0x78B7) (fun _ => 0)).Generate.x_ 0 = 0x4650 ∧
    (mwc1616.mk (N := 1) (fun _ => 1) (fun _ => 1) (fun _ => 0xFFFF) (fun _ => 0x4650)
        (fun _ => 0x78B7) (fun _ => 0)).Generate.y_ 0 = 0x78B7 ∧
    (mwc1616.mk (N := 1) (fun _ => 1) (fun _ => 1) (fun _ => 0xFFFF) (fun _ => 0x4650)
        (fun _ => 0x78B7) (fun _ => 0)).Generate.res_ 0 = 0x465078B7 :=
  mwc1616_known_vector
    (mwc1616.mk (N := 1) (fun _ => 1) (fun _ => 1) (fun _ => 0xFFFF) (fun _ => 0x4650)
      (fun _ => 0x78B7) (fun _ => 0)) 0 rfl rfl rfl rfl rfl

/-- C4. Known vector (XSA): a lane with `s0 = 1`, `s1 = 2` holds `s0 = 2`,
`s1 = 0x800023` and `res = 0x800025` after one call of `Generate`. -/
theorem xorshift128plus_known_vector {M : Nat} (s : xorshift128plus M) (i : Fin M)
    (h0 : s.s0_ i = 1) (h1 : s.s1_ i = 2) :
    s.Generate.s0_ i = 2 ∧ s.Generate.s1_ i = 0x800023 ∧ s.Generate.res_ i = 0x800025 := by
  have e1 : s.Generate.s1_ i = 0x800023 := by
    rw [xorshift128plus.xsa_Generate_s1_, h0, h1]; decide
  refine ⟨by rw [xorshift128plus.xsa_Generate_s0_, h1], e1, ?_⟩
  rw [xorshift128plus.xsa_Generate_res_, e1, h1]; decide

/-- Witness for C4: the single-lane object of the scenario. -/
theorem xorshift128plus_known_vector_witness :
    (xorshift128plus.mk (M := 1) (fun _ => 1) (fun _ => 2) (fun _ => 0)).Generate.s0_ 0 = 2 ∧
    (xorshift128plus.mk (M := 1) (fun _ => 1) (fun _ => 2) (fun _ => 0)).Generate.s1_ 0
      = 0x800023 ∧
    (xorshift128plus.mk (M := 1) (fun _ => 1) (fun _ => 2) (fun _ => 0)).Generate.res_ 0
      = 0x800025 :=
  xorshift128plus_known_vector
    (xorshift128plus.mk (M := 1) (fun _ => 1) (fun _ => 2) (fun _ => 0)) 0 rfl rfl

/-! ## Independence of lanes and of the lane count -/

/-- C5. Lane independence, for both generators: for every lane count, every two initial
states that agree on every lane except lane `i` (and, for MWC, have the same constants)
and every number of steps `k ≥ 1`, the two runs have equal state and equal `res` in every
lane `j ≠ i` after `k` calls of `Generate`. -/
theorem lane_independence :
    (∀ (N : Nat) (s s' : mwc1616 N) (i : Fin N) (k : Nat), 1 ≤ k →
      (∀ j, j ≠ i → s.x_ j = s'.x_ j ∧ s.y_ j = s'.y_ j) →
      s.mask_ = s'.mask_ → s.mul1_ = s'.mul1_ → s.mul2_ = s'.mul2_ →
      ∀ j, j ≠ i →
        (s.run k).x_ j = (s'.run k).x_ j ∧ (s.run k).y_ j = (s'.run k).y_ j ∧
        (s.run k).mask_ j = (s'.run k).mask_ j ∧ (s.run k).mul1_ j = (s'.run k).mul1_ j ∧
        (s.run k).mul2_ j = (s'.run k).mul2_ j ∧
        (s.run k).res_ j = (s'.run k).res_ j) ∧
    (∀ (M : Nat) (t t' : xorshift128plus M) (i : Fin M) (k : Nat), 1 ≤ k →
      (∀ j, j ≠ i → t.s0_ j = t'.s0_ j ∧ t.s1_ j = t'.s1_ j) →
      ∀ j, j ≠ i →
        (t.run k).s0_ j = (t'.run k).s0_ j ∧ (t.run k).s1_ j = (t'.run k).s1_ j ∧
        (t.run k).res_ j = (t'.run k).res_ j) := by
  constructor
  · intro N s s' i k hk hxy hmask hmul1 hmul2 j hj
    obtain ⟨rx, ry, rmask, rmul1, rmul2, rres⟩ :=
      mwc1616.mwc_run_lane_congr s s' j j (hxy j hj).1 (hxy j hj).2 (congrFun hmask j)
        (congrFun hmul1 j) (congrFun hmul2 j) k
    exact ⟨rx, ry, rmask, rmul1, rmul2, rres hk⟩
  · intro M t t' i k hk h01 j hj
    obtain ⟨r0, r1, rres⟩ :=
      xorshift128plus.xsa_run_lane_congr t t' j j (h01 j hj).1 (h01 j hj).2 k
    exact ⟨r0, r1, rres hk⟩

/-- Witness for C5: the sample objects differ in lane 0 only; lane 1 agrees after three
calls. -/
theorem lane_independence_witness :
    (mwc1616.sample.run 3).res_ 1 = (mwc1616.sample0.run 3).res_ 1 ∧
    (xorshift128plus.sample.run 3).res_ 1 = (xorshift128plus.sample0.run 3).res_ 1 :=
  ⟨(lane_independence.1 4 mwc1616.sample mwc1616.sample0 0 3 (by decide) (by decide)
      rfl rfl rfl 1 (by decide)).2.2.2.2.2,
   (lane_independence.2 2 xorshift128plus.sample xorshift128plus.sample0 0 3 (by decide)
      (by decide) 1 (by decide)).2.2⟩

/-- C6. Lane-count independence: for any two supported lane counts (4, 8, 16 for MWC;
2, 4, 8 for XSA) and any lane index `i` valid in both, if lane `i` starts with the same
`(x, y)` (resp. `(s0, s1)`) in the two generators, the MWC ones holding the constructor's
constants, then after every number of `Generate` calls lane `i` holds the same state in
both, and the same `res` once a call has produced one. -/
theorem lane_count_independence (a a' : SimdTarget) :
    (∀ (s : mwc1616 (SIMD_LEN_MWC1616 a)) (s' : mwc1616 (SIMD_LEN_MWC1616 a')) (i : Nat)
        (h : i < SIMD_LEN_MWC1616 a) (h' : i < SIMD_LEN_MWC1616 a'),
      s.constants → s'.constants →
      s.x_ ⟨i, h⟩ = s'.x_ ⟨i, h'⟩ → s.y_ ⟨i, h⟩ = s'.y_ ⟨i, h'⟩ →
      ∀ k : Nat,
        (s.run k).x_ ⟨i, h⟩ = (s'.run k).x_ ⟨i, h'⟩ ∧
        (s.run k).y_ ⟨i, h⟩ = (s'.run k).y_ ⟨i, h'⟩ ∧
        (s.run k).mask_ ⟨i, h⟩ = (s'.run k).mask_ ⟨i, h'⟩ ∧
        (s.run k).mul1_ ⟨i, h⟩ = (s'.run k).mul1_ ⟨i, h'⟩ ∧
        (s.run k).mul2_ ⟨i, h⟩ = (s'.run k).mul2_ ⟨i, h'⟩ ∧
        (1 ≤ k → (s.run k).res_ ⟨i, h⟩ = (s'.run k).res_ ⟨i, h'⟩)) ∧
    (∀ (t : xorshift128plus (SIMD_LEN_XORSHIFT128p a))
        (t' : xorshift128plus (SIMD_LEN_XORSHIFT128p a')) (i : Nat)
        (h : i < SIMD_LEN_XORSHIFT128p a) (h' : i < SIMD_LEN_XORSHIFT128p a'),
      t.s0_ ⟨i, h⟩ = t'.s0_ ⟨i, h'⟩ → t.s1_ ⟨i, h⟩ = t'.s1_ ⟨i, h'⟩ →
      ∀ k : Nat,
        (t.run k).s0_ ⟨i, h⟩ = (t'.run k).s0_ ⟨i, h'⟩ ∧
        (t.run k).s1_ ⟨i, h⟩ = (t'.run k).s1_ ⟨i, h'⟩ ∧
        (1 ≤ k → (t.run k).res_ ⟨i, h⟩ = (t'.run k).res_ ⟨i, h'⟩)) := by
  constructor
  · intro s s' i h h' hc hc' hx hy k
    obtain ⟨m, m1, m2⟩ := hc ⟨i, h⟩
    obtain ⟨m', m1', m2'⟩ := hc' ⟨i, h'⟩
    exact mwc1616.mwc_run_lane_congr s s' ⟨i, h⟩ ⟨i, h'⟩ hx hy (m.trans m'.symm)
      (m1.trans m1'.symm) (m2.trans m2'.symm) k
  · intro t t' i h h' h0 h1 k
    exact xorshift128plus.xsa_run_lane_congr t t' ⟨i, h⟩ ⟨i, h'⟩ h0 h1 k

/-- Witness for C6: lane 3 of the four-lane and of the eight-lane MWC sample, and lane 1
of the two-lane and of the four-lane XSA sample, after five calls. -/
theorem lane_count_independence_witness :
    (mwc1616.sample.run 5).res_ 3 = (mwc1616.sample8.run 5).res_ 3 ∧
    (xorshift128plus.sample.run 5).res_ 1 = (xorshift128plus.sample4.run 5).res_ 1 :=
  ⟨((lane_count_independence .sse .avx2).1 mwc1616.sample mwc1616.sample8 3 (by decide)
      (by decide) (fun _ => ⟨rfl, rfl, rfl⟩) (fun _ => ⟨rfl, rfl, rfl⟩) rfl rfl
      5).2.2.2.2.2 (by decide),
   ((lane_count_independence .sse .avx2).2 xorshift128plus.sample xorshift128plus.sample4 1
      (by decide) (by decide) rfl rfl 5).2.2 (by decide)⟩

/-! ## Invariants and fixed points -/

/-- C7. XSA zero fixed point: for every lane count and every `k ≥ 0`, if every lane has
`s0 = 0` and `s1 = 0`, then after `k` calls of `Generate` every lane still has `s0 = 0` and
`s1 = 0`, and after every call (`k ≥ 1`) `res = 0` in every lane. -/
theorem xorshift128plus_zero_fixed_point {M : Nat} (s : xorshift128plus M)
    (hz : ∀ i, s.s0_ i = 0 ∧ s.s1_ i = 0) (k : Nat) (i : Fin M) :
    (s.run k).s0_ i = 0 ∧ (s.run k).s1_ i = 0 ∧ (1 ≤ k → (s.run k).res_ i = 0) := by
  induction k with
  | zero => exact ⟨(hz i).1, (hz i).2, fun h => absurd h (by decide)⟩
  | succ k ih =>
    obtain ⟨i0, i1, _⟩ := ih
    have e0 : (s.run (k + 1)).s0_ i = 0 := by
      rw [xorshift128plus.run, xorshift128plus.xsa_Generate_s0_, i1]
    have e1 : (s.run (k + 1)).s1_ i = 0 := by
      rw [xorshift128plus.run, xorshift128plus.xsa_Generate_s1_, i0, i1]; decide
    refine ⟨e0, e1, fun _ => ?_⟩
    have e1g : (s.run k).Generate.s1_ i = 0 := e1
    rw [xorshift128plus.run, xorshift128plus.xsa_Generate_res_, e1g, i1]; decide

/-- Witness for C7: the all-zero two-lane object after four calls. -/
theorem xorshift128plus_zero_fixed_point_witness :
    (∀ i, xorshift128plus.zero.s0_ i = 0 ∧ xorshift128plus.zero.s1_ i = 0) ∧
    (xorshift128plus.zero.run 4).s0_ 1 = 0 ∧ (xorshift128plus.zero.run 4).s1_ 1 = 0 ∧
    (xorshift128plus.zero.run 4).res_ 1 = 0 :=
  ⟨fun _ => ⟨rfl, rfl⟩,
   (xorshift128plus_zero_fixed_point xorshift128plus.zero (fun _ => ⟨rfl, rfl⟩) 4 1).1,
   (xorshift128plus_zero_fixed_point xorshift128plus.zero (fun _ => ⟨rfl, rfl⟩) 4 1).2.1,
   (xorshift128plus_zero_fixed_point xorshift128plus.zero (fun _ => ⟨rfl, rfl⟩) 4 1).2.2
     (by decide)⟩

/-- C8. The MWC constants are a reachable-state invariant: whatever the storage held and
whatever the entropy source returns, the constructor sets `mask = 0xFFFF`, `mul1 = 0x4650`,
`mul2 = 0x78B7` in every lane; `Generate` leaves `mask`, `mul1` and `mul2` unchanged; hence
after construction and any number of `Generate` calls every lane holds these values. -/
theorem mwc1616_constants_invariant {N : Nat} (mem : mwc1616 N) (rd : random_device) :
    (∀ i : Fin N, (mwc1616.ctor mem rd).1.mask_ i = 0xFFFF ∧
      (mwc1616.ctor mem rd).1.mul1_ i = 0x4650 ∧ (mwc1616.ctor mem rd).1.mul2_ i = 0x78B7) ∧
    (∀ s : mwc1616 N, s.Generate.mask_ = s.mask_ ∧ s.Generate.mul1_ = s.mul1_ ∧
      s.Generate.mul2_ = s.mul2_) ∧
    (∀ (k : Nat) (i : Fin N), ((mwc1616.ctor mem rd).1.run k).mask_ i = 0xFFFF ∧
      ((mwc1616.ctor mem rd).1.run k).mul1_ i = 0x4650 ∧
      ((mwc1616.ctor mem rd).1.run k).mul2_ i = 0x78B7) := by
  have hctor : (mwc1616.ctor mem rd).1.constants :=
    fun i => mwc1616.mwc_ctorLoop_constants (mem, rd) N i i.isLt
  exact ⟨hctor, fun s => ⟨s.mwc_Generate_mask_, s.mwc_Generate_mul1_, s.mwc_Generate_mul2_⟩,
    fun k => mwc1616.mwc_run_constants _ hctor k⟩

/-- C9. No hidden state in the output buffer, for both generators: if two states agree on
the recurrence state (`x`, `y` and the constants for MWC; `s0`, `s1` for XSA) but differ
arbitrarily in `res`, then after any number `k ≥ 1` of `Generate` calls the two states are
equal in every field, `res` included. -/
theorem no_hidden_state_in_res :
    (∀ (N : Nat) (s s' : mwc1616 N) (k : Nat), 1 ≤ k →
      s.x_ = s'.x_ → s.y_ = s'.y_ → s.mask_ = s'.mask_ → s.mul1_ = s'.mul1_ →
      s.mul2_ = s'.mul2_ → s.run k = s'.run k) ∧
    (∀ (M : Nat) (t t' : xorshift128plus M) (k : Nat), 1 ≤ k →
      t.s0_ = t'.s0_ → t.s1_ = t'.s1_ → t.run k = t'.run k) := by
  constructor
  · intro N s s' k hk hx hy hmask hmul1 hmul2
    obtain ⟨n, rfl⟩ : ∃ n, k = n + 1 := ⟨k - 1, by omega⟩
    rw [mwc1616.mwc_run_succ_front, mwc1616.mwc_run_succ_front,
      mwc1616.mwc_Generate_congr s s' hx hy hmask hmul1 hmul2]
  · intro M t t' k hk h0 h1
    obtain ⟨n, rfl⟩ : ∃ n, k = n + 1 := ⟨k - 1, by omega⟩
    rw [xorshift128plus.xsa_run_succ_front, xorshift128plus.xsa_run_succ_front,
      xorshift128plus.xsa_Generate_congr t t' h0 h1]

/-- Witness for C9: the sample objects with their output buffers overwritten. -/
theorem no_hidden_state_in_res_witness :
    ({ mwc1616.sample with res_ := fun i => 99 + i } : mwc1616 4).run 2
      = mwc1616.sample.run 2 ∧
    ({ xorshift128plus.sample with res_ := fun i => 99 + i } : xorshift128plus 2).run 2
      = xorshift128plus.sample.run 2 :=
  ⟨no_hidden_state_in_res.1 4 _ _ 2 (by decide) rfl rfl rfl rfl rfl,
   no_hidden_state_in_res.2 2 _ _ 2 (by decide) rfl rfl⟩

/-! ## Seeding -/

/-- C10. XSA seeding layout: with the entropy source a sequence of 32-bit draws
`d 0, d 1, d 2, ...` consumed in order, the constructor sets, for every lane `i < M`,
`s0[i] = d (4 i) * 2^32 + d (4 i + 1)` and `s1[i] = d (4 i + 2) * 2^32 + d (4 i + 3)`,
consuming exactly `4 M` draws; all-zero draws yield the all-zero state. -/
theorem xorshift128plus_seeding_layout {M : Nat} (mem : xorshift128plus M) (d : Nat → Nat)
    (hd : ∀ n, d n < 2 ^ 32) :
    (∀ i : Fin M,
      (xorshift128plus.ctor mem ⟨d, 0⟩).1.s0_ i = d (4 * i) * 2 ^ 32 + d (4 * i + 1) ∧
      (xorshift128plus.ctor mem ⟨d, 0⟩).1.s1_ i = d (4 * i + 2) * 2 ^ 32 + d (4 * i + 3)) ∧
    (xorshift128plus.ctor mem ⟨d, 0⟩).2.taken = 4 * M ∧
    (xorshift128plus.ctor mem ⟨d, 0⟩).2.draws = d ∧
    ((∀ n, d n = 0) → ∀ i : Fin M,
      (xorshift128plus.ctor mem ⟨d, 0⟩).1.s0_ i = 0 ∧
      (xorshift128plus.ctor mem ⟨d, 0⟩).1.s1_ i = 0) := by
  obtain ⟨ht, hdr, hl⟩ := xorshift128plus.xsa_ctorLoop_spec mem ⟨d, 0⟩ M
  have hlayout : ∀ i : Fin M,
      (xorshift128plus.ctor mem ⟨d, 0⟩).1.s0_ i = d (4 * i) * 2 ^ 32 + d (4 * i + 1) ∧
      (xorshift128plus.ctor mem ⟨d, 0⟩).1.s1_ i
        = d (4 * i + 2) * 2 ^ 32 + d (4 * i + 3) := by
    intro i
    obtain ⟨h0, h1⟩ := hl i i.isLt
    simp only [Nat.zero_add, Nat.mod_eq_of_lt (hd _)] at h0 h1
    exact ⟨h0.trans (concat_halves _ _ (hd _) (hd _)),
      h1.trans (concat_halves _ _ (hd _) (hd _))⟩
  refine ⟨hlayout, by simpa using ht, hdr, fun hzero i => ?_⟩
  obtain ⟨h0, h1⟩ := hlayout i
  rw [h0, h1]
  simp [hzero]

/-- Witness for C10: two lanes seeded from the sample draws. -/
theorem xorshift128plus_seeding_layout_witness :
    (∀ n, random_device.sampleDraws n < 2 ^ 32) ∧
    (xorshift128plus.ctor xorshift128plus.zero ⟨random_device.sampleDraws, 0⟩).1.s0_ 1
      = 31 * 2 ^ 32 + 38 ∧
    (xorshift128plus.ctor xorshift128plus.zero ⟨random_device.sampleDraws, 0⟩).2.taken = 8 :=
  ⟨fun _ => Nat.mod_lt _ (by decide),
   ((xorshift128plus_seeding_layout xorshift128plus.zero random_device.sampleDraws
      (fun _ => Nat.mod_lt _ (by decide))).1 1).1,
   (xorshift128plus_seeding_layout xorshift128plus.zero random_device.sampleDraws
      (fun _ => Nat.mod_lt _ (by decide))).2.1⟩

/-! ## Arithmetic of the multiply-with-carry step -/

theorem and_mask16 (x : Nat) : x &&& 0xFFFF = x % 65536 :=
  Nat.and_pow_two_sub_one_eq_mod x 16

theorem shr16 (x : Nat) : x >>> 16 = x / 65536 := Nat.shiftRight_eq_div_pow x 16

theorem mwc1616.mwc_xexact_eq {N : Nat} (s : mwc1616 N) (hc : s.constants) (i : Fin N) :
    s.xexact i = s.x_ i % 65536 * 18000 + s.x_ i / 65536 := by
  obtain ⟨hmask, hmul1, _⟩ := hc i
  simp [mwc1616.xexact, _simd_load_si, _simd_and_si, _simd_srli_epi32, hmask, hmul1,
    and_mask16, shr16]

theorem mwc1616.mwc_yexact_eq {N : Nat} (s : mwc1616 N) (hc : s.constants) (i : Fin N) :
    s.yexact i = s.y_ i % 65536 * 30903 + s.y_ i / 65536 := by
  obtain ⟨hmask, _, hmul2⟩ := hc i
  simp [mwc1616.yexact, _simd_load_si, _simd_and_si, _simd_srli_epi32, hmask, hmul2,
    and_mask16, shr16]

theorem mwc1616.mwc_Generate_x_mod {N : Nat} (s : mwc1616 N) (i : Fin N) :
    s.Generate.x_ i = s.xexact i % 2 ^ 32 := by
  rw [mwc1616.mwc_Generate_x_, Nat.mod_add_mod]
  simp [mwc1616.xexact, _simd_load_si, _simd_and_si, _simd_srli_epi32]

theorem mwc1616.mwc_Generate_y_mod {N : Nat} (s : mwc1616 N) (i : Fin N) :
    s.Generate.y_ i = s.yexact i % 2 ^ 32 := by
  rw [mwc1616.mwc_Generate_y_, Nat.mod_add_mod]
  simp [mwc1616.yexact, _simd_load_si, _simd_and_si, _simd_srli_epi32]

/-- For a 32-bit `x` the unreduced x update is at most `0xFFFF * 0x4651`. -/
theorem mwc1616.mwc_xexact_le {N : Nat} (s : mwc1616 N) (hc : s.constants) (i : Fin N)
    (hx : s.x_ i < 2 ^ 32) : s.xexact i ≤ 0xFFFF * 0x4651 := by
  rw [mwc1616.mwc_xexact_eq s hc i]
  omega

/-- For a 32-bit `y` the unreduced y update is at most `0xFFFF * 0x78B8`. -/
theorem mwc1616.mwc_yexact_le {N : Nat} (s : mwc1616 N) (hc : s.constants) (i : Fin N)
    (hy : s.y_ i < 2 ^ 32) : s.yexact i ≤ 0xFFFF * 0x78B8 := by
  rw [mwc1616.mwc_yexact_eq s hc i]
  omega

/-- For a 32-bit `x` the reduction of the x update modulo `2 ^ 32` is the identity. -/
theorem mwc1616.mwc_Generate_x_exact {N : Nat} (s : mwc1616 N) (hc : s.constants)
    (i : Fin N) (hx : s.x_ i < 2 ^ 32) : s.Generate.x_ i = s.xexact i := by
  have h := mwc1616.mwc_xexact_le s hc i hx
  rw [mwc1616.mwc_Generate_x_mod]
  exact Nat.mod_eq_of_lt (by omega)

/-- For a 32-bit `y` the reduction of the y update modulo `2 ^ 32` is the identity. -/
theorem mwc1616.mwc_Generate_y_exact {N : Nat} (s : mwc1616 N) (hc : s.constants)
    (i : Fin N) (hy : s.y_ i < 2 ^ 32) : s.Generate.y_ i = s.yexact i := by
  have h := mwc1616.mwc_yexact_le s hc i hy
  rw [mwc1616.mwc_Generate_y_mod]
  exact Nat.mod_eq_of_lt (by omega)

/-! ## Overflow in the x and y updates -/

/-- C11, as stated, fails: there is no state with the constructor's constants and a 32-bit
`x` whose unreduced x update reaches `2 ^ 32`, so the conjunction of the two existence
statements of the claim is false. -/
theorem mwc1616_overflow_unreachable :
    ¬ ((∃ (N : Nat) (s : mwc1616 N) (i : Fin N),
          s.constants ∧ s.x_ i < 2 ^ 32 ∧ 2 ^ 32 ≤ s.xexact i) ∧
       (∃ (N : Nat) (s : mwc1616 N) (i : Fin N),
          s.constants ∧ s.y_ i < 2 ^ 32 ∧ 2 ^ 32 ≤ s.yexact i)) := by
  rintro ⟨⟨N, s, i, hc, hx, hge⟩, _⟩
  have h := mwc1616.mwc_xexact_le s hc i hx
  omega

/-- C11, amended. For every state with the constructor's constants and every lane whose
`x` and `y` are 32-bit values, the unreduced values of `(x & 0xFFFF) * 0x4650 + (x >> 16)`
and `(y & 0xFFFF) * 0x78B7 + (y >> 16)` are below `2 ^ 32`, so the reduction modulo
`2 ^ 32` in the x and y updates of `Generate` never changes the value. -/
theorem mwc1616_update_never_overflows {N : Nat} (s : mwc1616 N) (hc : s.constants)
    (i : Fin N) (hx : s.x_ i < 2 ^ 32) (hy : s.y_ i < 2 ^ 32) :
    s.xexact i = (s.x_ i &&& 0xFFFF) * 0x4650 + s.x_ i >>> 16 ∧
    s.yexact i = (s.y_ i &&& 0xFFFF) * 0x78B7 + s.y_ i >>> 16 ∧
    s.xexact i < 2 ^ 32 ∧ s.yexact i < 2 ^ 32 ∧
    s.Generate.x_ i = s.xexact i ∧ s.Generate.y_ i = s.yexact i := by
  have hxl := mwc1616.mwc_xexact_le s hc i hx
  have hyl := mwc1616.mwc_yexact_le s hc i hy
  refine ⟨?_, ?_, by omega, by omega, mwc1616.mwc_Generate_x_exact s hc i hx,
    mwc1616.mwc_Generate_y_exact s hc i hy⟩
  · rw [mwc1616.mwc_xexact_eq s hc i, and_mask16, shr16]
  · rw [mwc1616.mwc_yexact_eq s hc i, and_mask16, shr16]

/-- Witness for the amended C11: the largest 32-bit values do not overflow. -/
theorem mwc1616_update_never_overflows_witness :
    mwc1616.sampleMax.constants ∧ mwc1616.sampleMax.x_ 0 < 2 ^ 32 ∧
    mwc1616.sampleMax.y_ 0 < 2 ^ 32 ∧
    mwc1616.sampleMax.xexact 0 < 2 ^ 32 ∧ mwc1616.sampleMax.yexact 0 < 2 ^ 32 :=
  ⟨fun _ => ⟨rfl, rfl, rfl⟩, by decide, by decide,
   (mwc1616_update_never_overflows mwc1616.sampleMax (fun _ => ⟨rfl, rfl, rfl⟩) 0
      (by decide) (by decide)).2.2.1,
   (mwc1616_update_never_overflows mwc1616.sampleMax (fun _ => ⟨rfl, rfl, rfl⟩) 0
      (by decide) (by decide)).2.2.2.1⟩

/-! ## The zero lane of MWC -/

/-- A lane with `x = 0` and `y = 0` is mapped to `x = 0`, `y = 0`, `res = 0`. -/
theorem mwc1616.mwc_Generate_zero_lane {N : Nat} (s : mwc1616 N) (i : Fin N)
    (hx : s.x_ i = 0) (hy : s.y_ i = 0) :
    s.Generate.x_ i = 0 ∧ s.Generate.y_ i = 0 ∧ s.Generate.res_ i = 0 := by
  have h1 : s.Generate.x_ i = 0 := by rw [mwc1616.mwc_Generate_x_, hx]; simp
  have h2 : s.Generate.y_ i = 0 := by rw [mwc1616.mwc_Generate_y_, hy]; simp
  refine ⟨h1, h2, ?_⟩
  rw [mwc1616.mwc_Generate_res_, h1, h2]; simp

/-- C12. MWC zero lane: for every `k ≥ 0`, if a lane has `x = 0` and `y = 0` (constants as
constructed), then after `k` calls of `Generate` that lane still has `x = 0` and `y = 0` and
the `res` produced for it is `0`, while every other lane evolves exactly as in any object
that differs from this one in the zero lane only. -/
theorem mwc1616_zero_lane {N : Nat} (s : mwc1616 N) (hc : s.constants) (i : Fin N)
    (hx : s.x_ i = 0) (hy : s.y_ i = 0) (k : Nat) :
    (s.run k).x_ i = 0 ∧ (s.run k).y_ i = 0 ∧ (1 ≤ k → (s.run k).res_ i = 0) ∧
    ∀ s' : mwc1616 N, s'.constants →
      (∀ j, j ≠ i → s'.x_ j = s.x_ j ∧ s'.y_ j = s.y_ j) →
      ∀ j, j ≠ i →
        (s'.run k).x_ j = (s.run k).x_ j ∧ (s'.run k).y_ j = (s.run k).y_ j ∧
        (1 ≤ k → (s'.run k).res_ j = (s.run k).res_ j) := by
  have hzero : (s.run k).x_ i = 0 ∧ (s.run k).y_ i = 0 ∧ (1 ≤ k → (s.run k).res_ i = 0) := by
    induction k with
    | zero => exact ⟨hx, hy, fun h => absurd h (by decide)⟩
    | succ k ih =>
      obtain ⟨gx, gy, gres⟩ := mwc1616.mwc_Generate_zero_lane (s.run k) i ih.1 ih.2.1
      exact ⟨gx, gy, fun _ => gres⟩
  refine ⟨hzero.1, hzero.2.1, hzero.2.2, fun s' hc' hxy j hj => ?_⟩
  obtain ⟨m, m1, m2⟩ := hc j
  obtain ⟨m', m1', m2'⟩ := hc' j
  obtain ⟨rx, ry, _, _, _, rres⟩ :=
    mwc1616.mwc_run_lane_congr s' s j j (hxy j hj).1 (hxy j hj).2 (m'.trans m.symm)
      (m1'.trans m1.symm) (m2'.trans m2.symm) k
  exact ⟨rx, ry, rres⟩

/-- Witness for C12: lane 0 of `mwc1616.sampleZero` stays zero for six calls, and lane 2
evolves as in `mwc1616.sample`, whose lane 0 is not zero. -/
theorem mwc1616_zero_lane_witness :
    mwc1616.sampleZero.constants ∧
    (mwc1616.sampleZero.run 6).x_ 0 = 0 ∧ (mwc1616.sampleZero.run 6).y_ 0 = 0 ∧
    (mwc1616.sampleZero.run 6).res_ 0 = 0 ∧
    (mwc1616.sample.run 6).res_ 2 = (mwc1616.sampleZero.run 6).res_ 2 :=
  ⟨fun _ => ⟨rfl, rfl, rfl⟩,
   (mwc1616_zero_lane mwc1616.sampleZero (fun _ => ⟨rfl, rfl, rfl⟩) 0 rfl rfl 6).1,
   (mwc1616_zero_lane mwc1616.sampleZero (fun _ => ⟨rfl, rfl, rfl⟩) 0 rfl rfl 6).2.1,
   (mwc1616_zero_lane mwc1616.sampleZero (fun _ => ⟨rfl, rfl, rfl⟩) 0 rfl rfl 6).2.2.1
     (by decide),
   ((mwc1616_zero_lane mwc1616.sampleZero (fun _ => ⟨rfl, rfl, rfl⟩) 0 rfl rfl 6).2.2.2
     mwc1616.sample (fun _ => ⟨rfl, rfl, rfl⟩) (by decide) 2 (by decide)).2.2 (by decide)⟩

/-! ## The xorshift step is invertible -/

theorem shiftRight_xor_distrib_nat (a b n : Nat) :
    (a ^^^ b) >>> n = a >>> n ^^^ b >>> n := by
  apply Nat.eq_of_testBit_eq; intro i; simp

theorem shiftLeft_mod_xor_distrib_nat (a b n w : Nat) :
    ((a ^^^ b) <<< n) % 2 ^ w = (a <<< n) % 2 ^ w ^^^ (b <<< n) % 2 ^ w := by
  apply Nat.eq_of_testBit_eq; intro i
  simp only [Nat.testBit_mod_two_pow, Nat.testBit_xor, Nat.testBit_shiftLeft]
  cases decide (i < w) <;> cases decide (i ≥ n) <;> simp

/-- The map `t ↦ t XOR (t >> 18)` sends only zero to zero. -/
theorem xor_shiftRight_eq_zero (t : Nat) (h : t ^^^ t >>> 18 = 0) : t = 0 := by
  rw [Nat.xor_eq_zero, Nat.shiftRight_eq_div_pow] at h
  omega

/-- The map `a ↦ a XOR ((a << 23) mod 2^64)` sends only zero to zero. -/
theorem xor_shiftLeft_eq_zero (a : Nat) (h : a ^^^ (a <<< 23) % 2 ^ 64 = 0) : a = 0 := by
  rw [Nat.xor_eq_zero, Nat.shiftLeft_eq] at h
  omega

theorem xor_shiftRight_injective (t t' : Nat) (h : t ^^^ t >>> 18 = t' ^^^ t' >>> 18) :
    t = t' := by
  have h0 : (t ^^^ t') ^^^ (t ^^^ t') >>> 18 = 0 := by
    rw [shiftRight_xor_distrib_nat, Nat.xor_eq_zero]
    calc t ^^^ t' = (t ^^^ t >>> 18) ^^^ t >>> 18 ^^^ t' := by rw [Nat.xor_cancel_right]
      _ = (t' ^^^ t' >>> 18) ^^^ t >>> 18 ^^^ t' := by rw [h]
      _ = t >>> 18 ^^^ t' >>> 18 := by
        apply Nat.eq_of_testBit_eq; intro i
        simp only [Nat.testBit_xor]
        cases t'.testBit i <;> cases (t' >>> 18).testBit i <;>
          cases (t >>> 18).testBit i <;> rfl
  exact Nat.xor_eq_zero.mp (xor_shiftRight_eq_zero _ h0)

theorem xor_shiftLeft_injective (a a' : Nat)
    (h : a ^^^ (a <<< 23) % 2 ^ 64 = a' ^^^ (a' <<< 23) % 2 ^ 64) : a = a' := by
  have h0 : (a ^^^ a') ^^^ ((a ^^^ a') <<< 23) % 2 ^ 64 = 0 := by
    rw [shiftLeft_mod_xor_distrib_nat, Nat.xor_eq_zero]
    calc a ^^^ a' = (a ^^^ (a <<< 23) % 2 ^ 64) ^^^ (a <<< 23) % 2 ^ 64 ^^^ a' := by
          rw [Nat.xor_cancel_right]
      _ = (a' ^^^ (a' <<< 23) % 2 ^ 64) ^^^ (a <<< 23) % 2 ^ 64 ^^^ a' := by rw [h]
      _ = (a <<< 23) % 2 ^ 64 ^^^ (a' <<< 23) % 2 ^ 64 := by
        apply Nat.eq_of_testBit_eq; intro i
        simp only [Nat.testBit_xor]
        cases a'.testBit i <;> cases ((a' <<< 23) % 2 ^ 64).testBit i <;>
          cases ((a <<< 23) % 2 ^ 64).testBit i <;> rfl
  exact Nat.xor_eq_zero.mp (xor_shiftLeft_eq_zero _ h0)

/-- The terms in `b` cancel from two equal values of the `s1` update. -/
theorem xor_cancel_b (t t' b : Nat)
    (h : t ^^^ b ^^^ t >>> 18 ^^^ b >>> 5 = t' ^^^ b ^^^ t' >>> 18 ^^^ b >>> 5) :
    t ^^^ t >>> 18 = t' ^^^ t' >>> 18 := by
  apply Nat.eq_of_testBit_eq; intro i
  have e := congrArg (fun v => v.testBit i) h
  simp only [Nat.testBit_xor] at e ⊢
  generalize t.testBit i = p at e ⊢
  generalize t'.testBit i = p' at e ⊢
  generalize (t >>> 18).testBit i = q at e ⊢
  generalize (t' >>> 18).testBit i = q' at e ⊢
  generalize b.testBit i = r at e
  generalize (b >>> 5).testBit i = r' at e
  revert p p' q q' r r'
  decide

/-- The per-lane transition of `xorshift128plus::Generate` is injective, also between
objects of different lane counts. -/
theorem xorshift128plus.xsa_Generate_lane_injective {M M' : Nat} (s : xorshift128plus M)
    (s' : xorshift128plus M') (i : Fin M) (i' : Fin M')
    (h0 : s.Generate.s0_ i = s'.Generate.s0_ i')
    (h1 : s.Generate.s1_ i = s'.Generate.s1_ i') :
    s.s0_ i = s'.s0_ i' ∧ s.s1_ i = s'.s1_ i' := by
  rw [xorshift128plus.xsa_Generate_s0_, xorshift128plus.xsa_Generate_s0_] at h0
  rw [xorshift128plus.xsa_Generate_s1_, xorshift128plus.xsa_Generate_s1_, h0] at h1
  exact ⟨xor_shiftLeft_injective _ _ (xor_shiftRight_injective _ _ (xor_cancel_b _ _ _ h1)),
    h0⟩

/-- A lane that `Generate` leaves at `(0, 0)` was at `(0, 0)` before the call. -/
theorem xorshift128plus.xsa_Generate_zero_only {M : Nat} (s : xorshift128plus M) (i : Fin M)
    (h0 : s.Generate.s0_ i = 0) (h1 : s.Generate.s1_ i = 0) :
    s.s0_ i = 0 ∧ s.s1_ i = 0 :=
  xorshift128plus.xsa_Generate_lane_injective s xorshift128plus.zero i 0
    (h0.trans (by decide)) (h1.trans (by decide))

/-- C13. XSA non-zero state is preserved: for every lane and every `k ≥ 0`, if
`(s0, s1) ≠ (0, 0)` in that lane before, then `(s0, s1) ≠ (0, 0)` in that lane after `k`
calls of `Generate`. -/
theorem xorshift128plus_nonzero_preserved {M : Nat} (s : xorshift128plus M) (i : Fin M)
    (h : (s.s0_ i, s.s1_ i) ≠ (0, 0)) (k : Nat) :
    ((s.run k).s0_ i, (s.run k).s1_ i) ≠ (0, 0) := by
  induction k with
  | zero => exact h
  | succ k ih =>
    intro hz
    have hz0 : (s.run k).Generate.s0_ i = 0 := congrArg Prod.fst hz
    have hz1 : (s.run k).Generate.s1_ i = 0 := congrArg Prod.snd hz
    obtain ⟨e0, e1⟩ := xorshift128plus.xsa_Generate_zero_only (s.run k) i hz0 hz1
    exact ih (by rw [e0, e1])

/-- Witness for C13: lane 1 of the two-lane sample after ten calls. -/
theorem xorshift128plus_nonzero_preserved_witness :
    (xorshift128plus.sample.s0_ 1, xorshift128plus.sample.s1_ 1) ≠ (0, 0) ∧
    ((xorshift128plus.sample.run 10).s0_ 1, (xorshift128plus.sample.run 10).s1_ 1) ≠ (0, 0) :=
  ⟨by decide, xorshift128plus_nonzero_preserved xorshift128plus.sample 1 (by decide) 10⟩

/-- C14. The XSA state transition is injective per lane: if one call of `Generate` maps
the lane states `(s0, s1) = (a, b)` and `(s0, s1) = (a', b')` to the same new `(s0, s1)`,
then `a = a'` and `b = b'`.  The two lanes may sit in any two objects; the values need not
even be restricted to 64 bits. -/
theorem xorshift128plus_transition_injective {M M' : Nat} (s : xorshift128plus M)
    (s' : xorshift128plus M') (i : Fin M) (i' : Fin M')
    (h : (s.Generate.s0_ i, s.Generate.s1_ i) = (s'.Generate.s0_ i', s'.Generate.s1_ i')) :
    s.s0_ i = s'.s0_ i' ∧ s.s1_ i = s'.s1_ i' :=
  xorshift128plus.xsa_Generate_lane_injective s s' i i' (congrArg Prod.fst h)
    (congrArg Prod.snd h)

/-- Witness for C14: lane 1 of the two-lane and of the four-lane sample have the same
image, and the same state. -/
theorem xorshift128plus_transition_injective_witness :
    (xorshift128plus.sample.Generate.s0_ 1, xorshift128plus.sample.Generate.s1_ 1)
      = (xorshift128plus.sample4.Generate.s0_ 1, xorshift128plus.sample4.Generate.s1_ 1) ∧
    xorshift128plus.sample.s0_ 1 = xorshift128plus.sample4.s0_ 1 ∧
    xorshift128plus.sample.s1_ 1 = xorshift128plus.sample4.s1_ 1 :=
  ⟨by decide,
   xorshift128plus_transition_injective xorshift128plus.sample xorshift128plus.sample4 1 1
     (by decide)⟩

/-! ## Congruence, fixed points and range of the multiply-with-carry step -/

theorem mwc1616.mwc_Generate_x_arith {N : Nat} (s : mwc1616 N) (hc : s.constants)
    (i : Fin N) :
    s.Generate.x_ i = (s.x_ i % 65536 * 18000 + s.x_ i / 65536) % 2 ^ 32 := by
  rw [mwc1616.mwc_Generate_x_mod, mwc1616.mwc_xexact_eq s hc i]

theorem mwc1616.mwc_Generate_y_arith {N : Nat} (s : mwc1616 N) (hc : s.constants)
    (i : Fin N) :
    s.Generate.y_ i = (s.y_ i % 65536 * 30903 + s.y_ i / 65536) % 2 ^ 32 := by
  rw [mwc1616.mwc_Generate_y_mod, mwc1616.mwc_yexact_eq s hc i]

/-- C15. MWC multiply-with-carry congruence: for every 32-bit `x` and `y` (constants as
constructed), the `x` committed by one `Generate` call satisfies
`x_new ≡ 0x4650 * x (mod 0x4650 * 2^16 - 1 = 0x464FFFFF)` and the `y` committed satisfies
`y_new ≡ 0x78B7 * y (mod 0x78B7 * 2^16 - 1 = 0x78B6FFFF)`, as congruences over the
integers. -/
theorem mwc1616_carry_congruence {N : Nat} (s : mwc1616 N) (hc : s.constants) (i : Fin N)
    (hx : s.x_ i < 2 ^ 32) (hy : s.y_ i < 2 ^ 32) :
    (0x4650 * 2 ^ 16 - 1 : Int) = 0x464FFFFF ∧ (0x78B7 * 2 ^ 16 - 1 : Int) = 0x78B6FFFF ∧
    (s.Generate.x_ i : Int) ≡ 0x4650 * (s.x_ i : Int) [ZMOD 0x464FFFFF] ∧
    (s.Generate.y_ i : Int) ≡ 0x78B7 * (s.y_ i : Int) [ZMOD 0x78B6FFFF] := by
  have ex := mwc1616.mwc_Generate_x_exact s hc i hx
  have ey := mwc1616.mwc_Generate_y_exact s hc i hy
  rw [mwc1616.mwc_xexact_eq s hc i] at ex
  rw [mwc1616.mwc_yexact_eq s hc i] at ey
  refine ⟨by norm_num, by norm_num, ?_, ?_⟩
  · rw [ex]
    unfold Int.ModEq
    omega
  · rw [ey]
    unfold Int.ModEq
    omega

/-- Witness for C15: lane 2 of the four-lane sample. -/
theorem mwc1616_carry_congruence_witness :
    mwc1616.sample.constants ∧ mwc1616.sample.x_ 2 < 2 ^ 32 ∧ mwc1616.sample.y_ 2 < 2 ^ 32 ∧
    (mwc1616.sample.Generate.x_ 2 : Int)
      ≡ 0x4650 * (mwc1616.sample.x_ 2 : Int) [ZMOD 0x464FFFFF] :=
  ⟨fun _ => ⟨rfl, rfl, rfl⟩, by decide, by decide,
   (mwc1616_carry_congruence mwc1616.sample (fun _ => ⟨rfl, rfl, rfl⟩) 2 (by decide)
      (by decide)).2.2.1⟩

/-- Solutions of `lo * (c + 1) + hi = lo + 65536 * hi` with a 16-bit `lo`, for a multiplier
`c + 1` whose predecessor is coprime to `65535`. -/
theorem carry_fixed_core (c lo hi : Nat) (hc : Nat.Coprime 65535 c) (hlo : lo < 65536)
    (h : lo * (c + 1) + hi = lo + 65536 * hi) :
    (lo = 0 ∧ hi = 0) ∨ (lo = 65535 ∧ hi = c) := by
  have e : lo * c = 65535 * hi := by
    have : lo * (c + 1) = lo * c + lo := Nat.mul_succ lo c
    omega
  obtain ⟨m, hm⟩ := hc.dvd_of_dvd_mul_right ⟨hi, e⟩
  have hm1 : m = 0 ∨ m = 1 := by omega
  rcases hm1 with rfl | rfl
  · left
    have hl : lo = 0 := by omega
    subst hl
    exact ⟨rfl, by omega⟩
  · right
    have hl : lo = 65535 := by omega
    subst hl
    exact ⟨rfl, Nat.eq_of_mul_eq_mul_left (by decide : 0 < 65535) (by rw [← e])⟩

/-- Fixed points of the x update on 32-bit values. -/
theorem carry_fixed_x (x : Nat) (hx : x < 2 ^ 32) :
    (x % 65536 * 18000 + x / 65536) % 2 ^ 32 = x ↔ x = 0 ∨ x = 0x464FFFFF := by
  have hlo : x % 65536 < 65536 := Nat.mod_lt _ (by decide)
  have hx' : x % 65536 + 65536 * (x / 65536) = x := Nat.mod_add_div x 65536
  have hlt : x % 65536 * 18000 + x / 65536 < 2 ^ 32 := by omega
  rw [Nat.mod_eq_of_lt hlt]
  constructor
  · intro h
    rcases carry_fixed_core 17999 (x % 65536) (x / 65536) (by decide) hlo
      (h.trans hx'.symm) with ⟨h1, h2⟩ | ⟨h1, h2⟩
    · left; rw [← hx', h1, h2]
    · right; rw [← hx', h1, h2]
  · rintro (rfl | rfl) <;> rfl

/-- Fixed points of the y update on 32-bit values. -/
theorem carry_fixed_y (y : Nat) (hy : y < 2 ^ 32) :
    (y % 65536 * 30903 + y / 65536) % 2 ^ 32 = y ↔ y = 0 ∨ y = 0x78B6FFFF := by
  have hlo : y % 65536 < 65536 := Nat.mod_lt _ (by decide)
  have hy' : y % 65536 + 65536 * (y / 65536) = y := Nat.mod_add_div y 65536
  have hlt : y % 65536 * 30903 + y / 65536 < 2 ^ 32 := by omega
  rw [Nat.mod_eq_of_lt hlt]
  constructor
  · intro h
    rcases carry_fixed_core 30902 (y % 65536) (y / 65536) (by decide) hlo
      (h.trans hy'.symm) with ⟨h1, h2⟩ | ⟨h1, h2⟩
    · left; rw [← hy', h1, h2]
    · right; rw [← hy', h1, h2]
  · rintro (rfl | rfl) <;> rfl

/-- A lane at the non-zero fixed point stays there and emits `0xFFFFFFFF`. -/
theorem mwc1616.mwc_Generate_fixed_lane {N : Nat} (s : mwc1616 N) (hc : s.constants)
    (i : Fin N) (hx : s.x_ i = 0x464FFFFF) (hy : s.y_ i = 0x78B6FFFF) :
    s.Generate.x_ i = 0x464FFFFF ∧ s.Generate.y_ i = 0x78B6FFFF ∧
    s.Generate.res_ i = 0xFFFFFFFF := by
  obtain ⟨hmask, hmul1, hmul2⟩ := hc i
  have h1 : s.Generate.x_ i = 0x464FFFFF := by
    rw [mwc1616.mwc_Generate_x_, hx, hmask, hmul1]; decide
  have h2 : s.Generate.y_ i = 0x78B6FFFF := by
    rw [mwc1616.mwc_Generate_y_, hy, hmask, hmul2]; decide
  refine ⟨h1, h2, ?_⟩
  rw [mwc1616.mwc_Generate_res_, h1, h2, hmask]; decide

/-- C16. MWC fixed points are exactly two per register: for every 32-bit `x`, the x update
of `Generate` returns `x` itself if and only if `x = 0` or `x = 0x464FFFFF`; for every
32-bit `y`, the y update returns `y` itself if and only if `y = 0` or `y = 0x78B6FFFF`; a
lane with `x = 0x464FFFFF`, `y = 0x78B6FFFF` keeps these values and emits `0xFFFFFFFF` at
every call. -/
theorem mwc1616_fixed_points {N : Nat} (s : mwc1616 N) (hc : s.constants) (i : Fin N)
    (hx : s.x_ i < 2 ^ 32) (hy : s.y_ i < 2 ^ 32) :
    (s.Generate.x_ i = s.x_ i ↔ s.x_ i = 0 ∨ s.x_ i = 0x464FFFFF) ∧
    (s.Generate.y_ i = s.y_ i ↔ s.y_ i = 0 ∨ s.y_ i = 0x78B6FFFF) ∧
    (s.x_ i = 0x464FFFFF → s.y_ i = 0x78B6FFFF → ∀ k : Nat,
      (s.run k).x_ i = 0x464FFFFF ∧ (s.run k).y_ i = 0x78B6FFFF ∧
      (1 ≤ k → (s.run k).res_ i = 0xFFFFFFFF)) := by
  refine ⟨?_, ?_, fun ex ey k => ?_⟩
  · rw [mwc1616.mwc_Generate_x_arith s hc i]
    exact carry_fixed_x _ hx
  · rw [mwc1616.mwc_Generate_y_arith s hc i]
    exact carry_fixed_y _ hy
  · induction k with
    | zero => exact ⟨ex, ey, fun h => absurd h (by decide)⟩
    | succ k ih =>
      obtain ⟨gx, gy, gres⟩ := mwc1616.mwc_Generate_fixed_lane (s.run k)
        (mwc1616.mwc_run_constants s hc k) i ih.1 ih.2.1
      exact ⟨gx, gy, fun _ => gres⟩

/-- Witness for C16: lane 3 of `mwc1616.sampleFixed` is a fixed point and emits
`0xFFFFFFFF` after seven calls. -/
theorem mwc1616_fixed_points_witness :
    mwc1616.sampleFixed.constants ∧ mwc1616.sampleFixed.x_ 3 < 2 ^ 32 ∧
    mwc1616.sampleFixed.y_ 3 < 2 ^ 32 ∧
    mwc1616.sampleFixed.Generate.x_ 3 = mwc1616.sampleFixed.x_ 3 ∧
    (mwc1616.sampleFixed.run 7).res_ 3 = 0xFFFFFFFF :=
  ⟨fun _ => ⟨rfl, rfl, rfl⟩, by decide, by decide,
   (mwc1616_fixed_points mwc1616.sampleFixed (fun _ => ⟨rfl, rfl, rfl⟩) 3 (by decide)
      (by decide)).1.mpr (Or.inr rfl),
   ((mwc1616_fixed_points mwc1616.sampleFixed (fun _ => ⟨rfl, rfl, rfl⟩) 3 (by decide)
      (by decide)).2.2 rfl rfl 7).2.2 (by decide)⟩

/-! ## Composition of the MWC output -/

/-- A 16-bit high part shifted left by 16 and OR-ed with a 16-bit low part is their sum. -/
theorem shl16_or (a b : Nat) (hb : b < 65536) : a <<< 16 ||| b = a * 65536 + b := by
  have hb' : b < 2 ^ 16 := hb
  rw [Nat.shiftLeft_eq, Nat.mul_comm, ← Nat.mul_add_lt_is_or hb']

/-- C17. MWC output composition: for every state with constants as constructed and every
lane, after `Generate` the upper 16 bits of `res` equal the low 16 bits of the new `x` and
the lower 16 bits of `res` equal the low 16 bits of the new `y`, i.e.
`res = ((x_new & 0xFFFF) << 16) OR (y_new & 0xFFFF)`; the final 32-bit addition, of
`xshiftnew` and `ymasknew`, never carries. -/
theorem mwc1616_output_composition {N : Nat} (s : mwc1616 N) (hc : s.constants) (i : Fin N) :
    s.Generate.res_ i >>> 16 = s.Generate.x_ i &&& 0xFFFF ∧
    s.Generate.res_ i &&& 0xFFFF = s.Generate.y_ i &&& 0xFFFF ∧
    s.Generate.res_ i = (s.Generate.x_ i &&& 0xFFFF) <<< 16 ||| (s.Generate.y_ i &&& 0xFFFF) ∧
    _simd_slli_epi32 s.Generate.x_ 0x10 i + _simd_and_si s.Generate.y_ s.mask_ i < 2 ^ 32 := by
  obtain ⟨hmask, _, _⟩ := hc i
  have hres := mwc1616.mwc_Generate_res_ s i
  rw [hmask, and_mask16, Nat.shiftLeft_eq] at hres
  have hcarry : _simd_slli_epi32 s.Generate.x_ 0x10 i + _simd_and_si s.Generate.y_ s.mask_ i
      = (s.Generate.x_ i * 2 ^ 16) % 2 ^ 32 + s.Generate.y_ i % 65536 := by
    simp [_simd_slli_epi32, _simd_and_si, hmask, and_mask16, Nat.shiftLeft_eq]
  have hlow : s.Generate.y_ i % 65536 < 65536 := Nat.mod_lt _ (by decide)
  rw [hcarry, shr16, and_mask16, and_mask16, and_mask16, shl16_or _ _ hlow, hres]
  generalize s.Generate.x_ i = X
  generalize s.Generate.y_ i = Y
  refine ⟨?_, ?_, ?_, ?_⟩ <;> omega

/-- Witness for C17: lane 1 of the four-lane sample. -/
theorem mwc1616_output_composition_witness :
    mwc1616.sample.constants ∧
    mwc1616.sample.Generate.res_ 1
      = (mwc1616.sample.Generate.x_ 1 &&& 0xFFFF) <<< 16
          ||| (mwc1616.sample.Generate.y_ 1 &&& 0xFFFF) :=
  ⟨fun _ => ⟨rfl, rfl, rfl⟩,
   (mwc1616_output_composition mwc1616.sample (fun _ => ⟨rfl, rfl, rfl⟩) 1).2.2.1⟩

/-! ## Range of the MWC state -/

/-- C18. MWC state-range invariant: with constants as constructed, if a lane has
`x ≤ 0x464FFFFF` and `y ≤ 0x78B6FFFF` before `Generate` then it has `x ≤ 0x464FFFFF` and
`y ≤ 0x78B6FFFF` after; and for arbitrary 32-bit `x` and `y` the committed values satisfy
`x_new ≤ 0xFFFF * 0x4651` and `y_new ≤ 0xFFFF * 0x78B8`, both bounds being below `2^31`. -/
theorem mwc1616_state_range {N : Nat} (s : mwc1616 N) (hc : s.constants) (i : Fin N) :
    (s.x_ i ≤ 0x464FFFFF → s.y_ i ≤ 0x78B6FFFF →
      s.Generate.x_ i ≤ 0x464FFFFF ∧ s.Generate.y_ i ≤ 0x78B6FFFF) ∧
    (s.x_ i < 2 ^ 32 → s.y_ i < 2 ^ 32 →
      s.Generate.x_ i ≤ 0xFFFF * 0x4651 ∧ s.Generate.y_ i ≤ 0xFFFF * 0x78B8) ∧
    0xFFFF * 0x4651 < 2 ^ 31 ∧ 0xFFFF * 0x78B8 < 2 ^ 31 := by
  refine ⟨fun hx hy => ?_, fun hx hy => ?_, by decide, by decide⟩
  · have hx32 : s.x_ i < 2 ^ 32 := by omega
    have hy32 : s.y_ i < 2 ^ 32 := by omega
    rw [mwc1616.mwc_Generate_x_exact s hc i hx32, mwc1616.mwc_Generate_y_exact s hc i hy32,
      mwc1616.mwc_xexact_eq s hc i, mwc1616.mwc_yexact_eq s hc i]
    constructor <;> omega
  · rw [mwc1616.mwc_Generate_x_exact s hc i hx, mwc1616.mwc_Generate_y_exact s hc i hy]
    exact ⟨mwc1616.mwc_xexact_le s hc i hx, mwc1616.mwc_yexact_le s hc i hy⟩

/-- Witness for C18: the fixed-point lane sits on the bound of the invariant, and the
largest 32-bit values are mapped below the general bound. -/
theorem mwc1616_state_range_witness :
    mwc1616.sampleFixed.constants ∧ mwc1616.sampleFixed.x_ 0 ≤ 0x464FFFFF ∧
    mwc1616.sampleFixed.y_ 0 ≤ 0x78B6FFFF ∧
    (mwc1616.sampleFixed.Generate.x_ 0 ≤ 0x464FFFFF ∧
      mwc1616.sampleFixed.Generate.y_ 0 ≤ 0x78B6FFFF) ∧
    mwc1616.sampleMax.x_ 0 < 2 ^ 32 ∧ mwc1616.sampleMax.y_ 0 < 2 ^ 32 ∧
    (mwc1616.sampleMax.Generate.x_ 0 ≤ 0xFFFF * 0x4651 ∧
      mwc1616.sampleMax.Generate.y_ 0 ≤ 0xFFFF * 0x78B8) :=
  ⟨fun _ => ⟨rfl, rfl, rfl⟩, by decide, by decide,
   (mwc1616_state_range mwc1616.sampleFixed (fun _ => ⟨rfl, rfl, rfl⟩) 0).1
     (by decide) (by decide),
   by decide, by decide,
   (mwc1616_state_range mwc1616.sampleMax (fun _ => ⟨rfl, rfl, rfl⟩) 0).2.1
     (by decide) (by decide)⟩

end fastrand
